import Mathlib

/-
Verification of the igazolas certificate generator (src/igazolo.py).

The embedding models the pure content of the program:
  * date parsing for the two accepted patterns YYYY-MM-DD / YYYY.MM.DD,
    following the semantics of datetime.strptime for those format strings
    (year is exactly four digits; month and day are one- or two-digit
    groups; the whole string must be consumed; the calendar validity
    check of the datetime constructor is included);
  * the canonical short rendering strftime("%y.%m.%d");
  * the platform-aware font fallback chain in _find_font, with the host
    environment (platform, file existence, font-load success) passed in
    as an explicit FontEnv value and font-load exceptions modelled as a
    Bool-valued failure of the corresponding environment function;
  * text placement in generate_handwritten_text, with the PIL textbbox
    measurement passed in as an explicit function;
  * the orchestration generate_igazolas_image, threading an explicit
    file-system value (which the function only reads) and recording the
    list of strings handed to the date parser, so that statements about
    file effects and about the number of parse invocations can be made.
-/

/-- A calendar date as produced by a successful strptime call; the model of
Python datetime values keeps only year, month and day, the fields this
program reads. -/
structure Date where
  year : Nat
  month : Nat
  day : Nat
deriving DecidableEq, Repr

/-- Gregorian leap-year rule used by Python's datetime module. -/
def isLeapYear (y : Nat) : Bool :=
  y % 4 == 0 && (y % 100 != 0 || y % 400 == 0)

/-- Number of days of a month, as validated by the datetime constructor. -/
def daysInMonth (y m : Nat) : Nat :=
  if m = 2 then (if isLeapYear y then 29 else 28)
  else if m = 4 ∨ m = 6 ∨ m = 9 ∨ m = 11 then 30
  else 31

/-- Numeric value of a digit character. -/
def digitVal (c : Char) : Nat := c.toNat - '0'.toNat

/-- Value of a digit group, as int() applied to the matched group. -/
def natFromDigits (l : List Char) : Nat :=
  l.foldl (fun n c => n * 10 + digitVal c) 0

/-- Final validity check of a strptime call for the formats used here:
the month group has one or two digits and value 1..12, the day group has
one or two digits, the datetime constructor then requires year at least 1
(MINYEAR) and the day to fit the month.  The regex bound day <= 31 is
subsumed by the calendar bound. -/
def checkDate (y mlen m dlen dd : Nat) : Option Date :=
  if 1 ≤ mlen ∧ mlen ≤ 2 ∧ 1 ≤ dlen ∧ dlen ≤ 2 ∧
     1 ≤ y ∧ 1 ≤ m ∧ m ≤ 12 ∧ 1 ≤ dd ∧ dd ≤ daysInMonth y m then
    some ⟨y, m, dd⟩
  else none

/-- After the month digits: the literal separator, then a maximal digit
run for the day with nothing after it (strptime rejects unconverted
trailing data). -/
def parseTail (sep : Char) (y mlen m : Nat) : List Char → Option Date
  | [] => none
  | f :: rest3 =>
    if f = sep then
      if rest3.drop (rest3.takeWhile Char.isDigit).length = [] then
        checkDate y mlen m (rest3.takeWhile Char.isDigit).length
          (natFromDigits (rest3.takeWhile Char.isDigit))
      else none
    else none

/-- Parse the month-separator-day tail of the string: a maximal digit run
for the month, then the separator and day. -/
def parseMD (sep : Char) (y : Nat) (rest : List Char) : Option Date :=
  parseTail sep y (rest.takeWhile Char.isDigit).length
    (natFromDigits (rest.takeWhile Char.isDigit))
    (rest.drop (rest.takeWhile Char.isDigit).length)

/-- strptime with format year-sep-month-sep-day: exactly four digits of
year, the literal separator, then the month/day tail. -/
def parseYMD (sep : Char) : List Char → Option Date
  | a :: b :: c :: d :: e :: rest =>
    if a.isDigit ∧ b.isDigit ∧ c.isDigit ∧ d.isDigit ∧ e = sep then
      parseMD sep (natFromDigits [a, b, c, d]) rest
    else none
  | _ => none

/-- Separator dispatch of generate_igazolas_image: a string containing a
dot is parsed with the dotted format, otherwise with the dashed one. -/
def parseDateList (s : List Char) : Option Date :=
  if s.contains '.' then parseYMD '.' s else parseYMD '-' s

/-- The same dispatch on strings. -/
def parseDateDispatch (s : String) : Option Date := parseDateList s.data

/-- Zero-pad a number below 100 to two digits, as the strftime field
directives do. -/
def pad2 (n : Nat) : String := if n < 10 then "0" ++ toString n else toString n

/-- strftime("%y.%m.%d"): two-digit year, month and day separated by
dots, the canonical render used for all on-image text. -/
def fmtShort (d : Date) : String :=
  pad2 (d.year % 100) ++ "." ++ pad2 d.month ++ "." ++ pad2 d.day

example : parseDateDispatch "2025-12-01" = some ⟨2025, 12, 1⟩ := by decide
example : parseDateDispatch "2025.12.01" = some ⟨2025, 12, 1⟩ := by decide
example : parseDateDispatch "2025/12/01" = none := by decide
example : parseDateDispatch "2025-02-29" = none := by decide
example : parseDateDispatch "2024-2-29" = some ⟨2024, 2, 29⟩ := by decide
example : parseDateDispatch "2025-12-011" = none := by decide
example : parseDateDispatch "2025-13-01" = none := by decide
example : (parseDateDispatch "2025-12-01").map fmtShort = some "25.12.01" := by decide

/-- Replace a dash by a dot, the character-level translation between the
two accepted encodings of one date. -/
def dashToDotChar (c : Char) : Char := if c = '-' then '.' else c

/-- Translate a dashed date string into the corresponding dotted one. -/
def dashToDot (l : List Char) : List Char := l.map dashToDotChar

/-- Result of platform.system(), selecting one of the three candidate
sets in _find_font. -/
inductive OSKind
  | windows
  | darwin
  | other
deriving DecidableEq, Repr

/-- Host-environment state _find_font interacts with: the platform, the
expansion of the home directory, os.path.exists, and whether
ImageFont.truetype succeeds on a path or on a bare name.  A load that
raises in the Python code is a load function returning false here; the
surrounding try/except then moves on to the next candidate. -/
structure FontEnv where
  system : OSKind
  home : String
  fileExists : String → Bool
  loadFile : String → Bool
  loadName : String → Bool

/-- A font value as returned by _find_font: a truetype font loaded from a
path, one resolved by bare name, or the built-in default bitmap font. -/
inductive Font
  | truetypeFile : String → Nat → Font
  | truetypeName : String → Nat → Font
  | default
deriving DecidableEq, Repr

/-- os.path.join of a directory and a file name, with the separator of
the detected platform. -/
def pathJoin (sys : OSKind) (d n : String) : String :=
  d ++ (if sys = OSKind.windows then "\\" else "/") ++ n

/-- The platform-specific search-directory list of _find_font.  The
Windows entry reproduces the raw string of the source, whose doubled
backslashes are literal. -/
def searchDirs (env : FontEnv) : List String :=
  match env.system with
  | OSKind.windows => ["C:\\\\Windows\\\\Fonts"]
  | OSKind.darwin =>
      ["/System/Library/Fonts", "/Library/Fonts", env.home ++ "/Library/Fonts"]
  | OSKind.other =>
      ["/usr/share/fonts", "/usr/local/share/fonts",
       env.home ++ "/.local/share/fonts", env.home ++ "/.fonts"]

/-- The platform-specific candidate font-file names of _find_font. -/
def fontCandidates (env : FontEnv) : List String :=
  match env.system with
  | OSKind.windows => ["segoepr.ttf", "Inkfree.ttf", "BRUSHSCI.TTF", "arial.ttf"]
  | OSKind.darwin =>
      ["Bradley Hand.ttf", "BradleyHandITCTT-Bold.ttf", "Brush Script.ttf",
       "Apple Chancery.ttf", "Noteworthy.ttc", "Marker Felt.ttc",
       "SnellRoundhand.ttf", "Arial.ttf"]
  | OSKind.other => ["DejaVuSans.ttf", "FreeSans.ttf", "Arial.ttf"]

/-- Inner loop of _find_font over the candidate names of one directory:
on the first existing file attempt to load it; a failed load or a missing
file moves on to the next candidate. -/
def tryCandidatesInDir (env : FontEnv) (size : Nat) (d : String) :
    List String → Option Font
  | [] => none
  | n :: rest =>
    let path := pathJoin env.system d n
    if env.fileExists path then
      if env.loadFile path then some (Font.truetypeFile path size)
      else tryCandidatesInDir env size d rest
    else tryCandidatesInDir env size d rest

/-- Outer loop of _find_font over the search directories. -/
def tryDirs (env : FontEnv) (size : Nat) : List String → Option Font
  | [] => none
  | d :: rest =>
    match tryCandidatesInDir env size d (fontCandidates env) with
    | some f => some f
    | none => tryDirs env size rest

/-- Last-resort loop of _find_font: try the candidate names directly,
letting the font subsystem resolve them. -/
def tryNames (env : FontEnv) (size : Nat) : List String → Option Font
  | [] => none
  | n :: rest =>
    if env.loadName n then some (Font.truetypeName n size)
    else tryNames env size rest

/-- _find_font: directory-based candidates, then bare-name candidates,
then the built-in default font.  Total by construction, matching the
try/except structure of the source that lets no failure escape. -/
def _find_font (env : FontEnv) (size : Nat) : Font :=
  match tryDirs env size (searchDirs env) with
  | some f => f
  | none =>
    match tryNames env size (fontCandidates env) with
    | some f => f
    | none => Font.default

/-- A font is usable in an environment when it is the default font or its
load succeeded there. -/
def fontUsable (env : FontEnv) : Font → Bool
  | Font.truetypeFile p _ => env.loadFile p
  | Font.truetypeName n _ => env.loadName n
  | Font.default => true

/-- A rectangle (x1, y1, x2, y2) in pixel coordinates. -/
structure Region where
  x1 : Int
  y1 : Int
  x2 : Int
  y2 : Int
deriving DecidableEq, Repr

/-- A text bounding box as returned by ImageDraw.textbbox: left, top,
right, bottom. -/
structure BBox where
  left : Int
  top : Int
  right : Int
  bottom : Int
deriving DecidableEq, Repr

/-- One draw.text call: position, text, fill color, font. -/
structure DrawCmd where
  x : Int
  y : Int
  text : String
  fill : Nat × Nat × Nat
  font : Font
deriving DecidableEq, Repr

/-- generate_handwritten_text: resolve a font, measure the text, place it
left-aligned 15 pixels from the left edge of the box and bottom-aligned 5
pixels above its bottom edge (compensating the top offset of the measured
bounding box), and draw it in the dark-blue ink color (0, 0, 139).  The
textbbox measurement of PIL is supplied as the measure argument. -/
def generate_handwritten_text (fenv : FontEnv) (measure : Font → String → BBox)
    (text : String) (position : Region) (fontSize : Nat) : DrawCmd :=
  let font := _find_font fenv fontSize
  let bbox := measure font text
  let textHeight := bbox.bottom - bbox.top
  let x := position.x1 + 15
  let y := position.y2 - textHeight - bbox.top - 5
  ⟨x, y, text, (0, 0, 139), font⟩

/-- The three fixed regions of the template. -/
def fromDatePos : Region := ⟨1347, 750, 1966, 864⟩

/-- Region of the to-date text. -/
def toDatePos : Region := ⟨2386, 759, 2934, 862⟩

/-- Region of the current-date text. -/
def currentDatePos : Region := ⟨921, 1385, 1685, 1505⟩

/-- The file system as seen by generate_igazolas_image: a finite map from
file names to (abstract) file contents. -/
def FS : Type := List (String × Nat)

/-- os.path.exists on the modelled file system. -/
def fsExists (fs : FS) (name : String) : Bool :=
  (List.lookup name fs).isSome

/-- Environment of one generate_igazolas_image call: the real-time clock
value, whether Image.open succeeds on a given file content, and the font
environment and text measurement used by generate_handwritten_text. -/
structure Env where
  now : Date
  decodeOk : Nat → Bool
  fontEnv : FontEnv
  measure : Font → String → BBox

/-- The error results of generate_igazolas_image (the non-None error
strings of the Python tuple, by kind). -/
inductive GenError
  | templateNotFound : String → GenError
  | imageLoadError : GenError
  | invalidFromDate : String → GenError
  | invalidToDate : String → GenError
deriving DecidableEq, Repr

/-- The success result: the three draw calls issued on the working copy
of the template, the derived output filename, and the two parsed dates
(the image itself is the template plus the three draw commands; no other
pixel is touched by the source). -/
structure GenResult where
  fromCmd : DrawCmd
  toCmd : DrawCmd
  currentCmd : DrawCmd
  filename : String
  fromDate : Date
  toDate : Date
deriving DecidableEq, Repr

/-- Full outcome of a call: the file system after the call, the list of
strings handed to strptime (in order), and the result. -/
structure GenOutput where
  fs : FS
  parses : List String
  res : Except GenError GenResult

/-- generate_igazolas_image: default the to-date string to the from-date
string, check that the template exists, open it, parse both date strings
with the separator dispatch, render the three canonical date texts into
the fixed regions at point size 100, and derive the output filename from
the parsed to-date without zero padding.  The file system is threaded
explicitly; the function only reads it. -/
def generate_igazolas_image (env : Env) (fs : FS) (fromDateStr : String)
    (toDateStrOpt : Option String) (inputFile : String) : GenOutput :=
  let toDateStr := match toDateStrOpt with
    | none => fromDateStr
    | some t => t
  match List.lookup inputFile fs with
  | none => ⟨fs, [], Except.error (GenError.templateNotFound inputFile)⟩
  | some content =>
    if env.decodeOk content then
      match parseDateDispatch fromDateStr with
      | none => ⟨fs, [fromDateStr], Except.error (GenError.invalidFromDate fromDateStr)⟩
      | some fromDate =>
        match parseDateDispatch toDateStr with
        | none =>
            ⟨fs, [fromDateStr, toDateStr],
             Except.error (GenError.invalidToDate toDateStr)⟩
        | some toDate =>
          let fromFmt := fmtShort fromDate
          let toFmt := fmtShort toDate
          let curFmt := fmtShort env.now
          let fromCmd := generate_handwritten_text env.fontEnv env.measure fromFmt fromDatePos 100
          let toCmd := generate_handwritten_text env.fontEnv env.measure toFmt toDatePos 100
          let curCmd := generate_handwritten_text env.fontEnv env.measure curFmt currentDatePos 100
          let outName :=
            "igazolas_" ++ toString toDate.month ++ "_" ++ toString toDate.day ++ ".jpg"
          ⟨fs, [fromDateStr, toDateStr],
           Except.ok ⟨fromCmd, toCmd, curCmd, outName, fromDate, toDate⟩⟩
    else ⟨fs, [], Except.error GenError.imageLoadError⟩

/-- Text drawn into the from-date region, when the call succeeded. -/
def okFromText : Except GenError GenResult → Option String
  | Except.ok r => some r.fromCmd.text
  | Except.error _ => none

/-- Text drawn into the to-date region, when the call succeeded. -/
def okToText : Except GenError GenResult → Option String
  | Except.ok r => some r.toCmd.text
  | Except.error _ => none

/-- Text drawn into the current-date region, when the call succeeded. -/
def okCurrentText : Except GenError GenResult → Option String
  | Except.ok r => some r.currentCmd.text
  | Except.error _ => none

/-- Output filename, when the call succeeded. -/
def okFilename : Except GenError GenResult → Option String
  | Except.ok r => some r.filename
  | Except.error _ => none

/-- Parsed from-date, when the call succeeded. -/
def okFromDate : Except GenError GenResult → Option Date
  | Except.ok r => some r.fromDate
  | Except.error _ => none

/-- Parsed to-date, when the call succeeded. -/
def okToDate : Except GenError GenResult → Option Date
  | Except.ok r => some r.toDate
  | Except.error _ => none

/-- Whether the result is the to-date variant of the date-format error. -/
def isToDateError : Except GenError GenResult → Bool
  | Except.error (GenError.invalidToDate _) => true
  | _ => false

/-- Concrete font environment for witnesses: a Unix host on which no
candidate font exists or loads. -/
def fontEnvW : FontEnv :=
  ⟨OSKind.other, "/root", fun _ => false, fun _ => false, fun _ => false⟩

/-- Concrete measurement for witnesses: every text measures as an empty
box at the origin. -/
def measureW : Font → String → BBox := fun _ _ => ⟨0, 0, 0, 0⟩

/-- Concrete call environment for witnesses: clock fixed at 2025-06-15,
every image decodes. -/
def envW : Env := ⟨⟨2025, 6, 15⟩, fun _ => true, fontEnvW, measureW⟩

/-- Concrete file system for witnesses: the template is present. -/
def fsW : FS := [("igazolas.jpg", 0)]

example :
    (generate_igazolas_image envW fsW "2025-12-01" none "igazolas.jpg").parses
      = ["2025-12-01", "2025-12-01"] := by decide
example :
    okFilename (generate_igazolas_image envW fsW "2025-12-01" (some "2025-12-05") "igazolas.jpg").res
      = some "igazolas_12_5.jpg" := by decide
example :
    okCurrentText (generate_igazolas_image envW fsW "2025-12-01" none "igazolas.jpg").res
      = some "25.06.15" := by decide
example : _find_font fontEnvW 100 = Font.default := by decide

/-- Modelled from the spec: an image for the Region Compositor's clear
operation, which is absent from src (design note 9 records that the
current version no longer clears regions before drawing; only section
4.3 of the spec describes it).  A raster of given extent with a pixel
lookup. -/
structure Img where
  width : Nat
  height : Nat
  px : Int → Int → Nat × Nat × Nat

/-- Modelled from the spec: the fixed small sample count per edge used by
clear. -/
def samplesPerEdge : Nat := 5

/-- Modelled from the spec: the constant margin by which sample points
are offset outward from the region boundary. -/
def sampleMargin : Int := 3

/-- Modelled from the spec: the fixed light-gray fallback fill color used
when no sample point lies inside the image. -/
def lightGrayFill : Nat × Nat × Nat := (200, 200, 200)

/-- Modelled from the spec: sample coordinates evenly spaced along one
edge between a and b. -/
def edgeOffsets (a b : Int) : List Int :=
  (List.range samplesPerEdge).map
    (fun i => a + (Int.ofNat i) * (b - a) / (Int.ofNat samplesPerEdge))

/-- Modelled from the spec: the sample points of clear, a fixed number
per edge, placed just outside the four edges of the region at the
constant margin. -/
def samplePoints (r : Region) : List (Int × Int) :=
  ((edgeOffsets r.x1 r.x2).map (fun x => (x, r.y1 - sampleMargin)))
  ++ ((edgeOffsets r.x1 r.x2).map (fun x => (x, r.y2 + sampleMargin)))
  ++ ((edgeOffsets r.y1 r.y2).map (fun y => (r.x1 - sampleMargin, y)))
  ++ ((edgeOffsets r.y1 r.y2).map (fun y => (r.x2 + sampleMargin, y)))

/-- Modelled from the spec: whether a sample point lies inside the image
bounds. -/
def inBounds (img : Img) (p : Int × Int) : Bool :=
  decide (0 ≤ p.1) && decide (p.1 < (img.width : Int)) &&
  decide (0 ≤ p.2) && decide (p.2 < (img.height : Int))

/-- Modelled from the spec: the sample points of the region that fall
inside the image bounds. -/
def validSamples (img : Img) (r : Region) : List (Int × Int) :=
  (samplePoints r).filter (inBounds img)

/-- Modelled from the spec: channel-wise sum of the pixel colors at the
given points. -/
def sumChannels (img : Img) (pts : List (Int × Int)) : Nat × Nat × Nat :=
  pts.foldl
    (fun acc p =>
      let c := img.px p.1 p.2
      (acc.1 + c.1, acc.2.1 + c.2.1, acc.2.2 + c.2.2))
    (0, 0, 0)

/-- Modelled from the spec: channel-wise truncating integer average of
the colors at the given points. -/
def avgColor (img : Img) (pts : List (Int × Int)) : Nat × Nat × Nat :=
  let s := sumChannels img pts
  (s.1 / pts.length, s.2.1 / pts.length, s.2.2 / pts.length)

/-- Modelled from the spec: the flat fill color clear uses, the average
of the valid samples, or the light-gray constant when there is none. -/
def clearColor (img : Img) (r : Region) : Nat × Nat × Nat :=
  if validSamples img r = [] then lightGrayFill
  else avgColor img (validSamples img r)

/-- Whether a pixel lies inside the region rectangle. -/
def inRegion (r : Region) (x y : Int) : Bool :=
  decide (r.x1 ≤ x) && decide (x ≤ r.x2) &&
  decide (r.y1 ≤ y) && decide (y ≤ r.y2)

/-- Modelled from the spec: clear fills the region with the estimated
background color and leaves every other pixel unchanged. -/
def clear (img : Img) (r : Region) : Img :=
  ⟨img.width, img.height,
   fun x y => if inRegion r x y then clearColor img r else img.px x y⟩

/-- Concrete image for witnesses: ten by ten pixels of one color. -/
def imgW : Img := ⟨10, 10, fun _ _ => (100, 50, 10)⟩

/-- Concrete interior region for witnesses. -/
def regionInner : Region := ⟨4, 4, 6, 6⟩

/-- Concrete region touching the image edges, all of whose sample points
fall outside the bounds. -/
def regionEdge : Region := ⟨0, 0, 9, 9⟩

example : validSamples imgW regionEdge = [] := by decide
example : validSamples imgW regionInner ≠ [] := by decide
example : clearColor imgW regionInner = (100, 50, 10) := by decide

/-- Omitting the to-date string is definitionally the same call as
passing the from-date string for it. -/
lemma generate_none_eq_some_self (env : Env) (fs : FS) (f file : String) :
    generate_igazolas_image env fs f none file
      = generate_igazolas_image env fs f (some f) file := rfl

/-- Any successful result with an explicit to-date string renders the
clock value into the current-date region. -/
lemma okCurrentText_eq_now_aux (env : Env) (fs : FS) (f u file : String) (c : String)
    (h : okCurrentText (generate_igazolas_image env fs f (some u) file).res = some c) :
    c = fmtShort env.now := by
  rcases hl : List.lookup file fs with _ | content
  · simp [generate_igazolas_image, hl, okCurrentText] at h
  · by_cases hd : env.decodeOk content
    · rcases hp : parseDateDispatch f with _ | d1
      · simp [generate_igazolas_image, hl, hd, hp, okCurrentText] at h
      · rcases hq : parseDateDispatch u with _ | d2
        · simp [generate_igazolas_image, hl, hd, hp, hq, okCurrentText] at h
        · simp [generate_igazolas_image, hl, hd, hp, hq, okCurrentText,
                generate_handwritten_text] at h
          exact h.symm
    · simp [generate_igazolas_image, hl, hd, okCurrentText] at h

/-- Any successful result renders the clock value into the current-date
region. -/
lemma okCurrentText_eq_now (env : Env) (fs : FS) (f : String) (t : Option String)
    (file : String) (c : String)
    (h : okCurrentText (generate_igazolas_image env fs f t file).res = some c) :
    c = fmtShort env.now := by
  rcases t with _ | u
  · rw [generate_none_eq_some_self] at h
    exact okCurrentText_eq_now_aux env fs f f file c h
  · exact okCurrentText_eq_now_aux env fs f u file c h

/-- C2 (amended): when the to-date input is absent, the from-date string
is parsed again for the to-date; both parses see the same string, so the
parsed dates coincide and the two regions receive identical text. -/
theorem omitted_to_date_same_render (env : Env) (fs : FS) (s file : String) :
    okFromDate (generate_igazolas_image env fs s none file).res
      = okToDate (generate_igazolas_image env fs s none file).res
    ∧ okFromText (generate_igazolas_image env fs s none file).res
      = okToText (generate_igazolas_image env fs s none file).res := by
  rw [generate_none_eq_some_self]
  rcases hl : List.lookup file fs with _ | content
  · simp [generate_igazolas_image, hl, okFromDate, okToDate, okFromText, okToText]
  · by_cases hd : env.decodeOk content
    · rcases hp : parseDateDispatch s with _ | d
      · simp [generate_igazolas_image, hl, hd, hp, okFromDate, okToDate,
              okFromText, okToText]
      · simp [generate_igazolas_image, hl, hd, hp, okFromDate, okToDate,
              okFromText, okToText, generate_handwritten_text]
    · simp [generate_igazolas_image, hl, hd, okFromDate, okToDate, okFromText, okToText]

/-- C2 (counterexample): with the template present, a call that omits the
to-date hands the from-date string to the date parser twice; the second
parse is a re-parse of the very same string, not a substitution of the
already-parsed value as the claim states. -/
theorem to_date_reparsed_cex :
    (generate_igazolas_image envW fsW "2025-12-01" none "igazolas.jpg").parses
      = ["2025-12-01", "2025-12-01"]
    ∧ ["2025-12-01", "2025-12-01"].length = 2 := by
  exact ⟨by decide, rfl⟩

/-- C3: the output filename is derived from the parsed to-date as
igazolas_month_day.jpg with no zero padding; in particular the call with
from 2025-12-01 and to 2025-12-05 yields igazolas_12_5.jpg. -/
theorem filename_from_to_date :
    (∀ (env : Env) (fs : FS) (f : String) (t : Option String) (file : String),
      okFilename (generate_igazolas_image env fs f t file).res
        = (okToDate (generate_igazolas_image env fs f t file).res).map
            (fun dd => "igazolas_" ++ toString dd.month ++ "_" ++ toString dd.day ++ ".jpg"))
    ∧ okFilename (generate_igazolas_image envW fsW "2025-12-01" (some "2025-12-05")
        "igazolas.jpg").res = some "igazolas_12_5.jpg" := by
  constructor
  · intro env fs f t file
    have key : ∀ u : String,
        okFilename (generate_igazolas_image env fs f (some u) file).res
          = (okToDate (generate_igazolas_image env fs f (some u) file).res).map
              (fun dd => "igazolas_" ++ toString dd.month ++ "_" ++ toString dd.day ++ ".jpg") := by
      intro u
      rcases hl : List.lookup file fs with _ | content
      · simp [generate_igazolas_image, hl, okFilename, okToDate]
      · by_cases hd : env.decodeOk content
        · rcases hp : parseDateDispatch f with _ | d1
          · simp [generate_igazolas_image, hl, hd, hp, okFilename, okToDate]
          · rcases hq : parseDateDispatch u with _ | d2
            · simp [generate_igazolas_image, hl, hd, hp, hq, okFilename, okToDate]
            · simp [generate_igazolas_image, hl, hd, hp, hq, okFilename, okToDate]
        · simp [generate_igazolas_image, hl, hd, okFilename, okToDate]
    rcases t with _ | u
    · rw [generate_none_eq_some_self]; exact key f
    · exact key u
  · decide

/-- C4: when the template file does not exist the call fails with the
template-not-found error, whatever the date inputs are; the existence
check precedes date parsing, so no date-format error can be reported
then, and the error carries no raster. -/
theorem template_check_precedes_dates (env : Env) (fs : FS) (f : String)
    (t : Option String) (file : String) (h : fsExists fs file = false) :
    (generate_igazolas_image env fs f t file).res
      = Except.error (GenError.templateNotFound file) := by
  rcases hl : List.lookup file fs with _ | content
  · simp [generate_igazolas_image, hl]
  · exact absurd h (by simp [fsExists, hl])

/-- Witness for C4: an empty file system with two malformed date inputs
still reports the missing template. -/
theorem template_check_precedes_dates_witness :
    fsExists [] "igazolas.jpg" = false
    ∧ (generate_igazolas_image envW [] "bad-date" (some "2025/12/01") "igazolas.jpg").res
        = Except.error (GenError.templateNotFound "igazolas.jpg") :=
  ⟨rfl, template_check_precedes_dates envW [] "bad-date" (some "2025/12/01") "igazolas.jpg" rfl⟩

/-- A font returned by the inner candidate loop loaded successfully. -/
lemma tryCandidatesInDir_usable (env : FontEnv) (size : Nat) (d : String) :
    ∀ (l : List String) (f : Font),
      tryCandidatesInDir env size d l = some f → fontUsable env f = true := by
  intro l
  induction l with
  | nil => intro f h; simp [tryCandidatesInDir] at h
  | cons n rest ih =>
    intro f h
    simp only [tryCandidatesInDir] at h
    by_cases he : env.fileExists (pathJoin env.system d n)
    · rw [if_pos he] at h
      by_cases hl : env.loadFile (pathJoin env.system d n)
      · rw [if_pos hl] at h
        cases h
        simp [fontUsable, hl]
      · rw [if_neg hl] at h
        exact ih f h
    · rw [if_neg he] at h
      exact ih f h

/-- A font returned by the directory loop loaded successfully. -/
lemma tryDirs_usable (env : FontEnv) (size : Nat) :
    ∀ (ds : List String) (f : Font),
      tryDirs env size ds = some f → fontUsable env f = true := by
  intro ds
  induction ds with
  | nil => intro f h; simp [tryDirs] at h
  | cons d rest ih =>
    intro f h
    simp only [tryDirs] at h
    rcases hc : tryCandidatesInDir env size d (fontCandidates env) with _ | g
    · rw [hc] at h
      exact ih f h
    · rw [hc] at h
      cases h
      exact tryCandidatesInDir_usable env size d (fontCandidates env) _ hc

/-- A font returned by the bare-name loop loaded successfully. -/
lemma tryNames_usable (env : FontEnv) (size : Nat) :
    ∀ (l : List String) (f : Font),
      tryNames env size l = some f → fontUsable env f = true := by
  intro l
  induction l with
  | nil => intro f h; simp [tryNames] at h
  | cons n rest ih =>
    intro f h
    simp only [tryNames] at h
    by_cases hl : env.loadName n
    · rw [if_pos hl] at h
      cases h
      simp [fontUsable, hl]
    · rw [if_neg hl] at h
      exact ih f h

/-- When no path loads, the inner candidate loop finds nothing. -/
lemma tryCandidatesInDir_none (env : FontEnv) (size : Nat) (d : String)
    (hF : ∀ p, env.loadFile p = false) :
    ∀ l : List String, tryCandidatesInDir env size d l = none := by
  intro l
  induction l with
  | nil => rfl
  | cons n rest ih =>
    simp only [tryCandidatesInDir]
    by_cases he : env.fileExists (pathJoin env.system d n)
    · rw [if_pos he, hF, if_neg (by simp)]
      exact ih
    · rw [if_neg he]
      exact ih

/-- When no path loads, the directory loop finds nothing. -/
lemma tryDirs_none (env : FontEnv) (size : Nat)
    (hF : ∀ p, env.loadFile p = false) :
    ∀ ds : List String, tryDirs env size ds = none := by
  intro ds
  induction ds with
  | nil => rfl
  | cons d rest ih =>
    simp only [tryDirs]
    rw [tryCandidatesInDir_none env size d hF]
    exact ih

/-- When no bare name loads, the last-resort loop finds nothing. -/
lemma tryNames_none (env : FontEnv) (size : Nat)
    (hN : ∀ n, env.loadName n = false) :
    ∀ l : List String, tryNames env size l = none := by
  intro l
  induction l with
  | nil => rfl
  | cons n rest ih =>
    simp only [tryNames]
    rw [hN, if_neg (by simp)]
    exact ih

/-- C5: font resolution is total and degrades gracefully: in every host
environment the returned font is usable (a successfully loaded candidate
or the built-in default), and when every candidate load fails, by path
and by bare name, the built-in default bitmap font is returned; no error
escapes to the caller. -/
theorem find_font_never_fails (env : FontEnv) (size : Nat) :
    fontUsable env (_find_font env size) = true
    ∧ ((∀ p, env.loadFile p = false) → (∀ n, env.loadName n = false) →
        _find_font env size = Font.default) := by
  constructor
  · unfold _find_font
    rcases h1 : tryDirs env size (searchDirs env) with _ | f
    · rcases h2 : tryNames env size (fontCandidates env) with _ | g
      · rfl
      · exact tryNames_usable env size (fontCandidates env) g h2
    · exact tryDirs_usable env size (searchDirs env) f h1
  · intro hF hN
    unfold _find_font
    rw [tryDirs_none env size hF, tryNames_none env size hN]

/-- Witness for C5: on a host where no candidate font file exists or
loads, the default font is still returned and counts as usable. -/
theorem find_font_never_fails_witness :
    fontUsable fontEnvW (_find_font fontEnvW 100) = true
    ∧ _find_font fontEnvW 100 = Font.default :=
  ⟨(find_font_never_fails fontEnvW 100).1,
   (find_font_never_fails fontEnvW 100).2 (fun _ => rfl) (fun _ => rfl)⟩

/-- C7: for every environment, measurement, text, region and point size,
the text is placed at x1 plus the fixed 15-pixel left padding, at
y2 minus text height minus the top offset of the bounding box minus the
fixed 5-pixel bottom padding, and drawn in the dark-blue ink (0, 0, 139). -/
theorem render_left_bottom_aligned_ink (fenv : FontEnv)
    (measure : Font → String → BBox) (text : String) (pos : Region) (size : Nat) :
    (generate_handwritten_text fenv measure text pos size).x = pos.x1 + 15
    ∧ (generate_handwritten_text fenv measure text pos size).y
        = pos.y2
          - ((measure (_find_font fenv size) text).bottom
              - (measure (_find_font fenv size) text).top)
          - (measure (_find_font fenv size) text).top - 5
    ∧ (generate_handwritten_text fenv measure text pos size).fill = (0, 0, 139)
    ∧ (generate_handwritten_text fenv measure text pos size).text = text :=
  ⟨rfl, rfl, rfl, rfl⟩

/-- C8: the core entry point never writes to the file system: the state
it returns is the state it was given, for every input; the composited
image exists only in the returned value. -/
theorem generate_writes_no_file (env : Env) (fs : FS) (f : String)
    (t : Option String) (file : String) :
    (generate_igazolas_image env fs f t file).fs = fs := by
  have key : ∀ u : String, (generate_igazolas_image env fs f (some u) file).fs = fs := by
    intro u
    rcases hl : List.lookup file fs with _ | content
    · simp [generate_igazolas_image, hl]
    · by_cases hd : env.decodeOk content
      · rcases hp : parseDateDispatch f with _ | d1
        · simp [generate_igazolas_image, hl, hd, hp]
        · rcases hq : parseDateDispatch u with _ | d2
          · simp [generate_igazolas_image, hl, hd, hp, hq]
          · simp [generate_igazolas_image, hl, hd, hp, hq]
      · simp [generate_igazolas_image, hl, hd]
  rcases t with _ | u
  · rw [generate_none_eq_some_self]; exact key f
  · exact key u

/-- C9: the current-date region always shows the canonical rendering of
the clock value: two calls under the same environment, whatever their
date arguments and file systems, draw the same current-date text. -/
theorem current_date_clock_only (env : Env) (fs1 fs2 : FS) (f1 f2 : String)
    (t1 t2 : Option String) (file1 file2 : String) (c1 c2 : String)
    (h1 : okCurrentText (generate_igazolas_image env fs1 f1 t1 file1).res = some c1)
    (h2 : okCurrentText (generate_igazolas_image env fs2 f2 t2 file2).res = some c2) :
    c1 = c2 := by
  rw [okCurrentText_eq_now env fs1 f1 t1 file1 c1 h1,
      okCurrentText_eq_now env fs2 f2 t2 file2 c2 h2]

/-- Witness for C9: two calls with different date arguments under the
same clock draw the same current-date text. -/
theorem current_date_clock_only_witness :
    okCurrentText (generate_igazolas_image envW fsW "2025-12-01" none "igazolas.jpg").res
      = some "25.06.15"
    ∧ okCurrentText (generate_igazolas_image envW fsW "2024.03.05" (some "2024.03.09")
        "igazolas.jpg").res = some "25.06.15"
    ∧ ("25.06.15" : String) = "25.06.15" :=
  ⟨by decide, by decide,
   current_date_clock_only envW fsW fsW "2025-12-01" "2024.03.05" none
     (some "2024.03.09") "igazolas.jpg" "igazolas.jpg" "25.06.15" "25.06.15"
     (by decide) (by decide)⟩

/-- C6: clear fills every pixel of the region with one flat color, the
truncating channel-wise average of the sample points that fall inside
the image bounds, falls back to the fixed light-gray constant when no
sample point is in bounds, and leaves pixels outside the region
unchanged. -/
theorem clear_sampling_fallback (img : Img) (r : Region) (x y : Int) :
    (inRegion r x y = true → (clear img r).px x y = clearColor img r)
    ∧ (validSamples img r = [] → clearColor img r = lightGrayFill)
    ∧ (validSamples img r ≠ [] →
        clearColor img r = avgColor img (validSamples img r))
    ∧ (inRegion r x y = false → (clear img r).px x y = img.px x y) := by
  refine ⟨?_, ?_, ?_, ?_⟩
  · intro h
    simp [clear, h]
  · intro h
    simp [clearColor, h]
  · intro h
    simp [clearColor, h]
  · intro h
    simp [clear, h]

/-- Witness for C6: on a concrete image, an interior region is filled
with the average sample color, and a region touching the image edges,
whose sample points all fall out of bounds, is filled light-gray. -/
theorem clear_sampling_fallback_witness :
    inRegion regionInner 5 5 = true
    ∧ validSamples imgW regionInner ≠ []
    ∧ (clear imgW regionInner).px 5 5 = clearColor imgW regionInner
    ∧ clearColor imgW regionInner = avgColor imgW (validSamples imgW regionInner)
    ∧ validSamples imgW regionEdge = []
    ∧ clearColor imgW regionEdge = lightGrayFill :=
  ⟨by decide, by decide,
   (clear_sampling_fallback imgW regionInner 5 5).1 (by decide),
   (clear_sampling_fallback imgW regionInner 5 5).2.2.1 (by decide),
   by decide,
   (clear_sampling_fallback imgW regionEdge 0 0).2.1 (by decide)⟩

/-- C10: a call that omits the to-date can never fail with the to-date
format error: the to-date string equals the from-date string, which must
already have parsed when the to-date parse runs. -/
theorem omitted_to_date_no_to_error (env : Env) (fs : FS) (s file : String) :
    isToDateError (generate_igazolas_image env fs s none file).res = false := by
  rw [generate_none_eq_some_self]
  rcases hl : List.lookup file fs with _ | content
  · simp [generate_igazolas_image, hl, isToDateError]
  · by_cases hd : env.decodeOk content
    · rcases hp : parseDateDispatch s with _ | d
      · simp [generate_igazolas_image, hl, hd, hp, isToDateError]
      · simp [generate_igazolas_image, hl, hd, hp, isToDateError]
    · simp [generate_igazolas_image, hl, hd, isToDateError]

/-- The dash-to-dot translation fixes every digit. -/
lemma dashToDotChar_digit {c : Char} (h : c.isDigit = true) : dashToDotChar c = c := by
  have hne : ¬ c = '-' := by
    intro he
    rw [he] at h
    exact absurd h (by decide)
  simp [dashToDotChar, hne]

/-- The dash-to-dot translation preserves digit-hood. -/
lemma isDigit_dashToDotChar (c : Char) : (dashToDotChar c).isDigit = c.isDigit := by
  by_cases he : c = '-'
  · subst he
    decide
  · simp [dashToDotChar, he]

/-- The translation of an empty string. -/
lemma dashToDot_nil : dashToDot [] = [] := rfl

/-- The translation of a nonempty string, character by character. -/
lemma dashToDot_cons (c : Char) (l : List Char) :
    dashToDot (c :: l) = dashToDotChar c :: dashToDot l := rfl

/-- The maximal digit run of a translated string is the maximal digit run
of the original. -/
lemma takeWhile_digit_dashToDot (l : List Char) :
    (dashToDot l).takeWhile Char.isDigit = l.takeWhile Char.isDigit := by
  unfold dashToDot
  rw [List.takeWhile_map]
  have hp : (Char.isDigit ∘ dashToDotChar) = Char.isDigit := by
    funext c
    exact isDigit_dashToDotChar c
  rw [hp]
  have hfix : ∀ x ∈ l.takeWhile Char.isDigit, dashToDotChar x = id x :=
    fun x hx => dashToDotChar_digit (List.mem_takeWhile_imp hx)
  rw [List.map_congr_left hfix, List.map_id]

/-- Dropping commutes with the translation. -/
lemma drop_dashToDot (l : List Char) (n : Nat) :
    (dashToDot l).drop n = dashToDot (l.drop n) :=
  (List.map_drop dashToDotChar l n).symm

/-- The month-day tail of a successfully parsed string parses to the same
date after translating the separator to a dot. -/
lemma parseMD_dashToDot (sep : Char) (hs : dashToDotChar sep = '.') (y : Nat)
    (rest : List Char) (d : Date) (h : parseMD sep y rest = some d) :
    parseMD '.' y (dashToDot rest) = some d := by
  unfold parseMD at h ⊢
  rw [takeWhile_digit_dashToDot, drop_dashToDot]
  rcases hr : rest.drop (rest.takeWhile Char.isDigit).length with _ | ⟨f, rest3⟩
  · rw [hr] at h
    simp [parseTail] at h
  · rw [hr] at h
    rw [dashToDot_cons]
    simp only [parseTail] at h ⊢
    by_cases hf : f = sep
    · rw [if_pos hf] at h
      rw [hf, hs, if_pos rfl]
      rw [takeWhile_digit_dashToDot, drop_dashToDot]
      by_cases he : rest3.drop (rest3.takeWhile Char.isDigit).length = []
      · rw [if_pos he] at h
        rw [he, dashToDot_nil, if_pos rfl]
        exact h
      · rw [if_neg he] at h
        exact absurd h (by simp)
    · rw [if_neg hf] at h
      exact absurd h (by simp)

/-- A successfully parsed string parses to the same date after
translating its separators to dots, and the translated string contains a
dot. -/
lemma parseYMD_dashToDot (sep : Char) (hs : dashToDotChar sep = '.') :
    ∀ (s : List Char) (d : Date), parseYMD sep s = some d →
      parseYMD '.' (dashToDot s) = some d ∧ '.' ∈ dashToDot s := by
  intro s d h
  match s with
  | [] => simp [parseYMD] at h
  | [a] => simp [parseYMD] at h
  | [a, b] => simp [parseYMD] at h
  | [a, b, c] => simp [parseYMD] at h
  | [a, b, c, d1] => simp [parseYMD] at h
  | a :: b :: c :: d1 :: e :: rest =>
    simp only [parseYMD] at h
    by_cases hcond : (a.isDigit : Prop) ∧ (b.isDigit : Prop) ∧ (c.isDigit : Prop)
        ∧ (d1.isDigit : Prop) ∧ e = sep
    · obtain ⟨ha, hb, hc2, hd2, he⟩ := hcond
      rw [if_pos ⟨ha, hb, hc2, hd2, he⟩] at h
      rw [dashToDot_cons, dashToDot_cons, dashToDot_cons, dashToDot_cons, dashToDot_cons]
      rw [dashToDotChar_digit ha, dashToDotChar_digit hb, dashToDotChar_digit hc2,
          dashToDotChar_digit hd2, he, hs]
      constructor
      · simp only [parseYMD]
        rw [if_pos (show _ ∧ _ ∧ _ ∧ _ ∧ _ from ⟨ha, hb, hc2, hd2, by trivial⟩)]
        exact parseMD_dashToDot sep hs (natFromDigits [a, b, c, d1]) rest d h
      · exact List.mem_cons_of_mem _ (List.mem_cons_of_mem _ (List.mem_cons_of_mem _
          (List.mem_cons_of_mem _ (List.mem_cons_self _ _))))
    · rw [if_neg hcond] at h
      exact absurd h (by simp)

/-- C1: date parsing dispatches on the separator present in the string (a
dot selects the dotted pattern, anything else the dashed one), and
parsing followed by canonical rendering does not depend on which
separator the input used: a string that parses gives the same date, and
hence the same six-digit YY.MM.DD render, after its dashes are turned
into dots; in particular 2025-12-01 and 2025.12.01 both render as
25.12.01. -/
theorem parse_separator_invariant :
    (∀ s : List Char,
      parseDateList s = if s.contains '.' then parseYMD '.' s else parseYMD '-' s)
    ∧ (∀ (s : List Char) (d : Date), parseDateList s = some d →
        parseDateList (dashToDot s) = some d
        ∧ (parseDateList (dashToDot s)).map fmtShort = some (fmtShort d))
    ∧ (parseDateDispatch "2025-12-01").map fmtShort = some "25.12.01"
    ∧ (parseDateDispatch "2025.12.01").map fmtShort = some "25.12.01" := by
  refine ⟨fun s => rfl, ?_, by decide, by decide⟩
  intro s d h
  unfold parseDateList at h ⊢
  by_cases hc : s.contains '.' = true
  · rw [if_pos hc] at h
    have hres := parseYMD_dashToDot '.' (by decide) s d h
    have hmem : (dashToDot s).contains '.' = true :=
      List.elem_eq_true_of_mem hres.2
    rw [if_pos hmem, hres.1]
    exact ⟨rfl, rfl⟩
  · rw [if_neg hc] at h
    have hres := parseYMD_dashToDot '-' (by decide) s d h
    have hmem : (dashToDot s).contains '.' = true :=
      List.elem_eq_true_of_mem hres.2
    rw [if_pos hmem, hres.1]
    exact ⟨rfl, rfl⟩

/-- Witness for C1: the dashed encoding of 2025-12-01 parses, and its
dotted translation parses to the same date with the same render. -/
theorem parse_separator_invariant_witness :
    parseDateList ("2025-12-01".data) = some ⟨2025, 12, 1⟩
    ∧ parseDateList (dashToDot ("2025-12-01".data)) = some ⟨2025, 12, 1⟩
    ∧ (parseDateList (dashToDot ("2025-12-01".data))).map fmtShort = some "25.12.01" :=
  ⟨by decide,
   (parse_separator_invariant.2.1 ("2025-12-01".data) ⟨2025, 12, 1⟩ (by decide)).1,
   (parse_separator_invariant.2.1 ("2025-12-01".data) ⟨2025, 12, 1⟩ (by decide)).2⟩
